import Mathlib

/-!
# layout_left_padded: a padded column-major layout mapping

Shallow embedding of `include/experimental/__p2642_bits/layout_padded.hpp`.

* A template argument that is either a value or `dynamic_extent` is an `Option Nat`
  (`none` is `dynamic_extent`).
* A class template becomes a type family indexed by its template arguments: the list of
  static extents `sx` of an `extents` type, the `padding_stride` of a `layout_left_padded`.
* `size_t` and `index_type` are unsigned integer types of a width given by `Widths`; a
  value of either is a natural number, and arithmetic done by the code in one of them wraps
  modulo two to the power of the width. The column-major collaborator, whose code is not
  among the sources, computes on natural numbers.
* A parameter pack of indices is a `List Nat`.
* The mapping constructor that carries an `assert` returns an `Option`.
-/

namespace Mdspan

/-! ## Collaborators: extents and the unpadded mappings -/

/-- Modelled from the spec: the ShapeSpec object of §3 and §6 (`extents.hpp` is not among the
sources). An object of the extents type whose static extents are `sx` holds one run-time value
per dimension; the value held for a statically known dimension is never read. -/
structure Extents (sx : List (Option Nat)) where
  vals : List Nat
deriving DecidableEq, Repr

/-- Modelled from the spec: `staticExtent(dim) → size|Dynamic` of §6
(`Extents::static_extent(r)`). -/
def static_extent (sx : List (Option Nat)) (r : Nat) : Option Nat :=
  sx.getD r none

/-- Modelled from the spec: `rank()` of §6 (`Extents::rank()`). -/
def Extents.rank {sx : List (Option Nat)} (_e : Extents sx) : Nat :=
  sx.length

/-- Modelled from the spec: `extent(dim) → size` of §6: the static value where the dimension
is statically known, the run-time value otherwise. -/
def Extents.extent {sx : List (Option Nat)} (e : Extents sx) (r : Nat) : Nat :=
  match static_extent sx r with
  | some v => v
  | none => e.vals.getD r 0

/-- Modelled from the spec: the equality comparison of ShapeSpec (§6): same rank and the same
size in every dimension, whatever is static on either side. -/
def Extents.eq {sx sy : List (Option Nat)} (a : Extents sx) (b : Extents sy) : Bool :=
  sx.length == sy.length && (List.range sx.length).all (fun r => a.extent r == b.extent r)

/-- Modelled from the spec: an extents object built from one value per dimension
(`T{v0, v1, ...}`). -/
def Extents.of_values (sx : List (Option Nat)) (vs : List Nat) : Extents sx :=
  ⟨vs⟩

/-- Modelled from the spec: the conversion of an extents object to another extents type of
the same rank (the implicit conversion at a `const _Extents&` parameter): every dimension's
size is carried over. -/
def Extents.convert {ox : List (Option Nat)} (sx : List (Option Nat)) (e : Extents ox) :
    Extents sx :=
  ⟨(List.range ox.length).map (fun r => e.extent r)⟩

/-- The same extents object at an extents type that is the same C++ type. -/
def Extents.retype {sx : List (Option Nat)} (sy : List (Option Nat)) (e : Extents sx) :
    Extents sy :=
  ⟨e.vals⟩

/-- Modelled from the spec: the StridedOffsetMapping of §2 and §6 (`layout_left.hpp` is not
among the sources): the plain column-major mapping over a shape. -/
structure layout_left.mapping (sx : List (Option Nat)) where
  extents : Extents sx
deriving DecidableEq, Repr

/-- Modelled from the spec: `stride(dim)` of the column-major mapping: the product of the
sizes of the dimensions before `i`. -/
def layout_left.mapping.stride {sx : List (Option Nat)} (m : layout_left.mapping sx)
    (i : Nat) : Nat :=
  (List.range i).foldl (fun value r => value * m.extents.extent r) 1

/-- Modelled from the spec: `requiredSpanSize()` of the column-major mapping: the product of
all the sizes. -/
def layout_left.mapping.required_span_size {sx : List (Option Nat)}
    (m : layout_left.mapping sx) : Nat :=
  (List.range sx.length).foldl (fun value r => value * m.extents.extent r) 1

/-- Modelled from the spec: the column-major offset of the indices of dimensions
`r, r+1, ...`, by Horner's rule. -/
def layout_left.mapping.compute_offset {sx : List (Option Nat)} (m : layout_left.mapping sx) :
    Nat → List Nat → Nat
  | _, [] => 0
  | r, i :: idx => layout_left.mapping.compute_offset m (r + 1) idx * m.extents.extent r + i

/-- Modelled from the spec: `offset(indices...)` of the column-major mapping
(`operator()`). -/
def layout_left.mapping.offset {sx : List (Option Nat)} (m : layout_left.mapping sx)
    (idxs : List Nat) : Nat :=
  m.compute_offset 0 idxs

/-- Modelled from the spec: the fully-strided mapping of §6 (`layout_stride.hpp` is not among
the sources): a shape and one arbitrary stride per dimension. -/
structure layout_stride.mapping (sx : List (Option Nat)) where
  extents : Extents sx
  strides : List Nat
deriving DecidableEq, Repr

/-- Modelled from the spec: `stride(dim)` of the fully-strided mapping. -/
def layout_stride.mapping.stride {sx : List (Option Nat)} (m : layout_stride.mapping sx)
    (r : Nat) : Nat :=
  m.strides.getD r 0

/-- Modelled from the spec: the mirror (row-major) padded mapping of §6, consumed only as a
conversion source: its true shape and the padded size of its last dimension. -/
structure layout_right_padded.mapping (padding_stride : Option Nat) (sx : List (Option Nat)) where
  extents : Extents sx
  padded_extent : Nat
deriving DecidableEq, Repr

/-! ## Integer types -/

/-- The widths in bits of the two unsigned integer types the code computes in: `size_t`, the
type of a padding stride and of a static extent, and `index_type`, the type of a run-time
extent. Both are taken to be at least as wide as `int`, so that no integer promotion widens
their arithmetic. -/
structure Widths where
  size_bits : Nat
  index_bits : Nat
deriving DecidableEq, Repr

/-- The conversion `static_cast<_T>(v)` of an integer to the unsigned type `_T` of width
`bits`. -/
def static_cast (bits : Nat) (v : Int) : Nat :=
  (v % ((2 ^ bits : Nat) : Int)).toNat

/-! ## detail -/

/-- The function `detail::__find_aligned_offset`, at an unsigned type `_T` of width `bits`:
the sum and the product are computed in `_T`, and wrap. -/
def find_aligned_offset (bits : Nat) (alignment offset : Nat) : Nat :=
  if alignment = 0 then 0
  else (((offset + alignment - 1) % 2 ^ bits) / alignment * alignment) % 2 ^ bits

/-- The `static_assert` that guards a padding stride of 0 (in
`detail::__get_actual_padding_stride` and in `mapping`). -/
def padding_stride_static_assert (sx : List (Option Nat)) (padding_stride : Option Nat) : Bool :=
  padding_stride != some 0 || static_extent sx 0 == some 0

/-- The function `detail::__get_actual_padding_stride<_ExtentsType, _PaddingStride>()`; it
rounds in `size_t`, of width `size_bits`. -/
def get_actual_padding_stride (size_bits : Nat) (sx : List (Option Nat))
    (padding_stride : Option Nat) : Option Nat :=
  if sx.length ≤ 1 then padding_stride
  else
    match padding_stride, static_extent sx 0 with
    | some p, some e0 => some (find_aligned_offset size_bits p e0)
    | _, _ => none

/-- The type
`detail::__substitute_extents_impl<_ExtentToSub, _Extents, _NewExtent, ...>::__type`. -/
def substitute_extents.type (extent_to_sub : Nat) (sx : List (Option Nat))
    (new_extent : Option Nat) : List (Option Nat) :=
  (List.range sx.length).map
    (fun i => if i = extent_to_sub then new_extent else static_extent sx i)

/-- The function `detail::__substitute_extents_impl::__construct_with_type<_T>`; `new_extents` is a
rank-1 extents object. -/
def substitute_extents.construct_with_type (extent_to_sub : Nat) (tx : List (Option Nat))
    {sx nx : List (Option Nat)} (extents : Extents sx) (new_extents : Extents nx) :
    Extents tx :=
  Extents.of_values tx
    ((List.range sx.length).map
      (fun i => if i = extent_to_sub then new_extents.extent 0 else extents.extent i))

/-- The function `detail::__substitute_extents_impl::__construct(__extents, __new_extents)`. -/
def substitute_extents.construct_with (extent_to_sub : Nat) {sx : List (Option Nat)}
    {new_extent : Option Nat} (extents : Extents sx) (new_extents : Extents [new_extent]) :
    Extents (substitute_extents.type extent_to_sub sx new_extent) :=
  substitute_extents.construct_with_type extent_to_sub
    (substitute_extents.type extent_to_sub sx new_extent) extents new_extents

/-- The function `detail::__substitute_extents_impl::__construct(__extents)`. -/
def substitute_extents.construct (extent_to_sub : Nat) {sx : List (Option Nat)}
    (new_extent : Option Nat) (extents : Extents sx) :
    Extents (substitute_extents.type extent_to_sub sx new_extent) :=
  Extents.of_values (substitute_extents.type extent_to_sub sx new_extent)
    ((List.range sx.length).map (fun i => extents.extent i))

/-- The type `detail::__inner_extents_left<_Extents, _ActualPaddingStride>::__type`, with its
specialisation for rank at most 1. -/
def inner_extents_left.type (sx : List (Option Nat)) (actual_padding_stride : Option Nat) :
    List (Option Nat) :=
  if sx.length ≤ 1 then sx
  else substitute_extents.type 0 sx actual_padding_stride

/-- The function `detail::__inner_extents_left::__construct<_PaddingStride>(__extents)`; its
run-time rounding is done in the type of `__extents.extent(0)`, the `index_type`, of width
`index_bits` (the call passes `_PaddingStride`, a `size_t`, next to it, and
`__find_aligned_offset` takes both arguments at one type `_T`, so on this path the two types
are the same). -/
def inner_extents_left.construct {sx : List (Option Nat)} (index_bits : Nat)
    (actual_padding_stride : Option Nat) (padding_stride : Option Nat) (extents : Extents sx) :
    Extents (inner_extents_left.type sx actual_padding_stride) :=
  if sx.length ≤ 1 then extents.retype _
  else
    match padding_stride with
    | none => (substitute_extents.construct 0 actual_padding_stride extents).retype _
    | some p =>
      match static_extent sx 0 with
      | none =>
        let s_left := find_aligned_offset index_bits p (extents.extent 0)
        (substitute_extents.construct_with 0 extents
          (Extents.of_values [actual_padding_stride] [s_left])).retype _
      | some _ =>
        (substitute_extents.construct_with 0 extents
          (Extents.of_values [actual_padding_stride] [0])).retype _

/-- The function
`detail::__inner_extents_left::__construct<_PaddingStride>(__extents, __padding_value)`, whose
`__padding_value` is a value of the `index_type`, of width `index_bits`. -/
def inner_extents_left.construct_padding {sx : List (Option Nat)} (index_bits : Nat)
    (actual_padding_stride : Option Nat) (extents : Extents sx) (padding_value : Nat) :
    Extents (inner_extents_left.type sx actual_padding_stride) :=
  if sx.length ≤ 1 then extents.retype _
  else
    let s_left := find_aligned_offset index_bits padding_value (extents.extent 0)
    (substitute_extents.construct_with 0 extents
      (Extents.of_values [actual_padding_stride] [s_left])).retype _

/-- The function
`detail::__inner_extents_left::__construct_other<_PaddingStride>(__extents, __stride0)`. -/
def inner_extents_left.construct_other {sx : List (Option Nat)}
    (actual_padding_stride : Option Nat) (extents : Extents sx) (stride0 : Nat) :
    Extents (inner_extents_left.type sx actual_padding_stride) :=
  if sx.length ≤ 1 then extents.retype _
  else
    (substitute_extents.construct_with 0 extents
      (Extents.of_values [actual_padding_stride] [stride0])).retype _

/-- The type `detail::__unpadded_extent_type_impl<_Extents>::__type`, with its specialisation for
rank 0. -/
def unpadded_extent_type_impl.type (sx : List (Option Nat)) : List (Option Nat) :=
  if sx.length = 0 then [] else [static_extent sx 0]

/-- The function `detail::__unpadded_extent_type_impl<_Extents>::__construct`. -/
def unpadded_extent_type_impl.construct {sx : List (Option Nat)} (extents : Extents sx) :
    Extents (unpadded_extent_type_impl.type sx) :=
  if sx.length = 0 then Extents.of_values _ []
  else Extents.of_values _ [extents.extent 0]

/-! ## layout_left_padded<padding_stride>::mapping<Extents> -/

/-- The class
`layout_left_padded<padding_stride>::mapping<Extents>`, on integer types of the widths `w`:
the column-major mapping over the padded inner shape, and the true size of dimension 0. -/
structure layout_left_padded.mapping (w : Widths) (padding_stride : Option Nat)
    (sx : List (Option Nat)) where
  inner_mapping :
    layout_left.mapping
      (inner_extents_left.type sx (get_actual_padding_stride w.size_bits sx padding_stride))
  unpadded_extent : Extents (unpadded_extent_type_impl.type sx)
deriving DecidableEq, Repr

/-- The constructor `mapping(const extents_type&)`. -/
def layout_left_padded.mapping.of_extents (w : Widths) (padding_stride : Option Nat)
    {sx : List (Option Nat)} (ext : Extents sx) :
    layout_left_padded.mapping w padding_stride sx :=
  ⟨⟨inner_extents_left.construct w.index_bits
      (get_actual_padding_stride w.size_bits sx padding_stride) padding_stride ext⟩,
   unpadded_extent_type_impl.construct ext⟩

/-- The constructor
`mapping(const extents_type&, _Size __padding_value)`, at an integer `__padding_value`: the
value is converted to the `index_type` both for the rounding and for the `assert` in the
body, which fails when the result is `none`. -/
def layout_left_padded.mapping.of_extents_padding (w : Widths) (padding_stride : Option Nat)
    {sx : List (Option Nat)} (ext : Extents sx) (padding_value : Int) :
    Option (layout_left_padded.mapping w padding_stride sx) :=
  if padding_stride = none ∨ padding_stride = some (static_cast w.index_bits padding_value) then
    some
      ⟨⟨inner_extents_left.construct_padding w.index_bits
          (get_actual_padding_stride w.size_bits sx padding_stride)
          ext (static_cast w.index_bits padding_value)⟩,
       unpadded_extent_type_impl.construct ext⟩
  else none

/-- The constructor `mapping(const layout_left::mapping<_OtherExtents>&)`. -/
def layout_left_padded.mapping.of_layout_left (w : Widths) (padding_stride : Option Nat)
    (sx : List (Option Nat)) {ox : List (Option Nat)} (other_mapping : layout_left.mapping ox) :
    layout_left_padded.mapping w padding_stride sx :=
  ⟨⟨inner_extents_left.construct_other (get_actual_padding_stride w.size_bits sx padding_stride)
      (other_mapping.extents.convert sx) (other_mapping.stride 1)⟩,
   unpadded_extent_type_impl.construct (other_mapping.extents.convert sx)⟩

/-- The constructor `mapping(const layout_stride::mapping<_OtherExtents>&)`. -/
def layout_left_padded.mapping.of_layout_stride (w : Widths) (padding_stride : Option Nat)
    (sx : List (Option Nat)) {ox : List (Option Nat)} (other_mapping : layout_stride.mapping ox) :
    layout_left_padded.mapping w padding_stride sx :=
  ⟨⟨inner_extents_left.construct_other (get_actual_padding_stride w.size_bits sx padding_stride)
      (other_mapping.extents.convert sx) (other_mapping.stride 1)⟩,
   unpadded_extent_type_impl.construct (other_mapping.extents.convert sx)⟩

/-- The function `mapping::stride(r)`. -/
def layout_left_padded.mapping.stride {w : Widths} {padding_stride : Option Nat}
    {sx : List (Option Nat)} (m : layout_left_padded.mapping w padding_stride sx) (r : Nat) : Nat :=
  m.inner_mapping.stride r

/-- The function `mapping::extents()`. -/
def layout_left_padded.mapping.extents {w : Widths} {padding_stride : Option Nat}
    {sx : List (Option Nat)} (m : layout_left_padded.mapping w padding_stride sx) : Extents sx :=
  if sx.length = 0 then Extents.of_values sx []
  else
    substitute_extents.construct_with_type 0 sx m.inner_mapping.extents m.unpadded_extent

/-- The constructor
`mapping(const layout_left_padded<_OtherPaddingStride>::mapping<_OtherExtents>&)`: what its
initialisers compute. (Its template parameters stand in a nested-name-specifier, where they
are not deduced.) -/
def layout_left_padded.mapping.of_layout_left_padded (w : Widths)
    (padding_stride : Option Nat) (sx : List (Option Nat)) {ow : Widths}
    {other_padding_stride : Option Nat} {ox : List (Option Nat)}
    (other_mapping : layout_left_padded.mapping ow other_padding_stride ox) :
    layout_left_padded.mapping w padding_stride sx :=
  ⟨⟨inner_extents_left.construct_other (get_actual_padding_stride w.size_bits sx padding_stride)
      (other_mapping.extents.convert sx) (other_mapping.stride 1)⟩,
   unpadded_extent_type_impl.construct (other_mapping.extents.convert sx)⟩

/-- The constructor
`mapping(const layout_right_padded<_OtherPaddingStride>::mapping<_OtherExtents>&)`: what its
initialisers compute, the inner mapping being built from the source's extents converted to
the inner extents type. (Its template parameters stand in a nested-name-specifier, where they
are not deduced.) -/
def layout_left_padded.mapping.of_layout_right_padded (w : Widths)
    (padding_stride : Option Nat) (sx : List (Option Nat)) {other_padding_stride : Option Nat}
    {ox : List (Option Nat)}
    (other_mapping : layout_right_padded.mapping other_padding_stride ox) :
    layout_left_padded.mapping w padding_stride sx :=
  ⟨⟨other_mapping.extents.convert _⟩,
   unpadded_extent_type_impl.construct (other_mapping.extents.convert sx)⟩

/-- The function `mapping::strides()`. -/
def layout_left_padded.mapping.strides {w : Widths} {padding_stride : Option Nat}
    {sx : List (Option Nat)} (m : layout_left_padded.mapping w padding_stride sx) : List Nat :=
  (List.range sx.length).map (fun r => m.inner_mapping.stride r)

/-- The function `mapping::required_span_size()`. -/
def layout_left_padded.mapping.required_span_size {w : Widths}
    {padding_stride : Option Nat} {sx : List (Option Nat)}
    (m : layout_left_padded.mapping w padding_stride sx) : Nat :=
  m.inner_mapping.required_span_size

/-- The function `mapping::operator()(__idxs...)`. -/
def layout_left_padded.mapping.offset {w : Widths} {padding_stride : Option Nat}
    {sx : List (Option Nat)} (m : layout_left_padded.mapping w padding_stride sx)
    (idxs : List Nat) : Nat :=
  m.inner_mapping.offset idxs

/-- The function `mapping::is_always_exhaustive()`. -/
def layout_left_padded.mapping.is_always_exhaustive (w : Widths)
    (padding_stride : Option Nat) (sx : List (Option Nat)) : Bool :=
  decide (sx.length ≤ 1)
    || (static_extent sx 0 != none
        && static_extent sx 0
            == static_extent
                (inner_extents_left.type sx
                  (get_actual_padding_stride w.size_bits sx padding_stride)) 0)

/-- The function `mapping::is_always_strided()`. -/
def layout_left_padded.mapping.is_always_strided (_padding_stride : Option Nat)
    (_sx : List (Option Nat)) : Bool :=
  true

/-- The function `mapping::is_exhaustive()`. -/
def layout_left_padded.mapping.is_exhaustive {w : Widths}
    {padding_stride : Option Nat} {sx : List (Option Nat)}
    (m : layout_left_padded.mapping w padding_stride sx) : Bool :=
  decide (sx.length = 0)
    || m.inner_mapping.extents.extent 0 == m.unpadded_extent.extent 0

/-- The function `mapping::is_strided()`. -/
def layout_left_padded.mapping.is_strided (_padding_stride : Option Nat)
    (_sx : List (Option Nat)) : Bool :=
  true

/-- The comparison
`operator==(const mapping&, const
layout_left_padded<_OtherPaddingStride>::mapping<_OtherExtents>&)`. -/
def layout_left_padded.mapping.eq {w ow : Widths} {padding_stride : Option Nat}
    {sx : List (Option Nat)} {other_padding_stride : Option Nat} {ox : List (Option Nat)}
    (left : layout_left_padded.mapping w padding_stride sx)
    (right : layout_left_padded.mapping ow other_padding_stride ox) : Bool :=
  left.extents.eq right.extents && (!(decide (sx.length > 1)) || left.stride 1 == right.stride 1)

/-- The mappings that the constructors of `layout_left_padded<padding_stride>::mapping<Extents>`
produce: one rule per constructor of the class. -/
inductive layout_left_padded.mapping.constructed :
    {w : Widths} → {padding_stride : Option Nat} → {sx : List (Option Nat)} →
    layout_left_padded.mapping w padding_stride sx → Prop
  | of_extents (w : Widths) (padding_stride : Option Nat) {sx : List (Option Nat)}
      (ext : Extents sx) :
      constructed (layout_left_padded.mapping.of_extents w padding_stride ext)
  | of_extents_padding (w : Widths) (padding_stride : Option Nat) {sx : List (Option Nat)}
      (ext : Extents sx) (padding_value : Int)
      (m : layout_left_padded.mapping w padding_stride sx)
      (h : layout_left_padded.mapping.of_extents_padding w padding_stride ext padding_value
            = some m) :
      constructed m
  | of_layout_left (w : Widths) (padding_stride : Option Nat) (sx : List (Option Nat))
      {ox : List (Option Nat)} (other_mapping : layout_left.mapping ox) :
      constructed (layout_left_padded.mapping.of_layout_left w padding_stride sx other_mapping)
  | of_layout_stride (w : Widths) (padding_stride : Option Nat) (sx : List (Option Nat))
      {ox : List (Option Nat)} (other_mapping : layout_stride.mapping ox) :
      constructed
        (layout_left_padded.mapping.of_layout_stride w padding_stride sx other_mapping)
  | of_layout_left_padded (w : Widths) (padding_stride : Option Nat) (sx : List (Option Nat))
      {ow : Widths} {other_padding_stride : Option Nat} {ox : List (Option Nat)}
      (other_mapping : layout_left_padded.mapping ow other_padding_stride ox)
      (h : constructed other_mapping) :
      constructed
        (layout_left_padded.mapping.of_layout_left_padded w padding_stride sx other_mapping)
  | of_layout_right_padded (w : Widths) (padding_stride : Option Nat)
      (sx : List (Option Nat)) {other_padding_stride : Option Nat} {ox : List (Option Nat)}
      (other_mapping : layout_right_padded.mapping other_padding_stride ox) :
      constructed
        (layout_left_padded.mapping.of_layout_right_padded w padding_stride sx other_mapping)

/-! ## The specification's words -/

/-- The specification's `roundUp(alignment, value)` (§4.1): 0 if `alignment` is 0, otherwise
`ceil(value / alignment) * alignment`, the division being exact division of rationals. -/
def roundUp (alignment value : Nat) : Nat :=
  if alignment = 0 then 0 else ⌈(value : ℚ) / (alignment : ℚ)⌉₊ * alignment

/-- An index tuple lies within a shape: one index per dimension, each below the size of its
dimension. -/
def Extents.contains {sx : List (Option Nat)} (e : Extents sx) (idxs : List Nat) : Prop :=
  idxs.length = sx.length ∧ ∀ r, r < sx.length → idxs.getD r 0 < e.extent r

/-- The width of the integer type in which the code rounds dimension 0 up to the padding
stride: `size_t` when the padding stride and dimension 0 are both static (the rounding is
done once, in `__get_actual_padding_stride`), the `index_type` otherwise (the rounding is
done at construction, on the run-time extent). -/
def rounding_bits (w : Widths) (padding_stride : Option Nat) (sx : List (Option Nat)) : Nat :=
  match padding_stride, static_extent sx 0 with
  | some _, some _ => w.size_bits
  | _, _ => w.index_bits

/-! ## Lemmas -/

/-! ### Rounding up -/

theorem ceil_div_eq (a v : Nat) (ha : a ≠ 0) : ⌈(v : ℚ) / (a : ℚ)⌉₊ = (v + a - 1) / a := by
  have hpos : 0 < a := Nat.pos_of_ne_zero ha
  have hq : (0 : ℚ) < (a : ℚ) := by exact_mod_cast hpos
  apply eq_of_forall_ge_iff
  intro n
  rw [Nat.ceil_le, div_le_iff₀ hq]
  have h1 : ((v : ℚ) ≤ (n : ℚ) * (a : ℚ)) ↔ v ≤ n * a := by exact_mod_cast Iff.rfl
  rw [h1]
  constructor
  · intro h
    have : (v + a - 1) / a < n + 1 := by
      rw [Nat.div_lt_iff_lt_mul hpos]
      have : (n + 1) * a = n * a + a := by ring
      omega
    omega
  · intro h
    have h2 : (v + a - 1) / a < n + 1 := by omega
    rw [Nat.div_lt_iff_lt_mul hpos] at h2
    have : (n + 1) * a = n * a + a := by ring
    omega

/-- The specification's rounding, by division of natural numbers. -/
theorem roundUp_eq (a v : Nat) :
    roundUp a v = if a = 0 then 0 else (v + a - 1) / a * a := by
  unfold roundUp
  by_cases ha : a = 0
  · simp [ha]
  · simp only [ha, if_false]
    rw [ceil_div_eq a v ha]

/-- The code's rounding is the specification's as long as the sum it forms does not leave
the range of the type it is computed in. -/
theorem find_aligned_offset_eq_roundUp (bits a v : Nat) (h : a = 0 ∨ v + a - 1 < 2 ^ bits) :
    find_aligned_offset bits a v = roundUp a v := by
  rw [roundUp_eq]
  unfold find_aligned_offset
  by_cases ha : a = 0
  · simp [ha]
  · simp only [ha, if_false]
    have hlt : v + a - 1 < 2 ^ bits := by
      rcases h with h | h
      · exact absurd h ha
      · exact h
    rw [Nat.mod_eq_of_lt hlt]
    exact Nat.mod_eq_of_lt (lt_of_le_of_lt (Nat.div_mul_le_self _ _) hlt)

theorem roundUp_dvd (a v : Nat) : a ∣ roundUp a v := by
  rw [roundUp_eq]
  split
  · simp
  · exact Dvd.intro_left _ rfl

/-- The conversion to the index type keeps a value the type can hold. -/
theorem static_cast_of_lt (bits P : Nat) (h : P < 2 ^ bits) :
    static_cast bits (P : Int) = P := by
  unfold static_cast
  rw [← Int.natCast_mod, Int.toNat_natCast]
  exact Nat.mod_eq_of_lt h

theorem getD_range_map {α : Type} (f : Nat → α) (n r : Nat) (d : α) (h : r < n) :
    ((List.range n).map f).getD r d = f r := by
  simp [List.getD, List.getElem?_map, List.getElem?_range h]

theorem substitute_type_length (k : Nat) (sx : List (Option Nat)) (nx : Option Nat) :
    (substitute_extents.type k sx nx).length = sx.length := by
  simp [substitute_extents.type]

theorem static_extent_substitute_type (k : Nat) (sx : List (Option Nat)) (nx : Option Nat)
    (r : Nat) (h : r < sx.length) :
    static_extent (substitute_extents.type k sx nx) r
      = if r = k then nx else static_extent sx r := by
  unfold static_extent substitute_extents.type
  rw [getD_range_map _ _ _ _ h]
  rfl

theorem inner_type_length (sx : List (Option Nat)) (aps : Option Nat) :
    (inner_extents_left.type sx aps).length = sx.length := by
  unfold inner_extents_left.type
  split
  · rfl
  · exact substitute_type_length 0 sx aps

theorem static_extent_inner_type_zero (sx : List (Option Nat)) (aps : Option Nat)
    (h : 2 ≤ sx.length) : static_extent (inner_extents_left.type sx aps) 0 = aps := by
  unfold inner_extents_left.type
  rw [if_neg (by omega), static_extent_substitute_type 0 sx aps 0 (by omega)]
  simp

theorem static_extent_inner_type_succ (sx : List (Option Nat)) (aps : Option Nat) (r : Nat)
    (hr : 1 ≤ r) (h : r < sx.length) :
    static_extent (inner_extents_left.type sx aps) r = static_extent sx r := by
  unfold inner_extents_left.type
  split
  · rfl
  · rw [static_extent_substitute_type 0 sx aps r h]
    simp [show r ≠ 0 by omega]

theorem static_extent_inner_type_small (sx : List (Option Nat)) (aps : Option Nat) (r : Nat)
    (h : sx.length ≤ 1) :
    static_extent (inner_extents_left.type sx aps) r = static_extent sx r := by
  unfold inner_extents_left.type
  rw [if_pos h]

/-! ### Inner extents -/

theorem extent_of_static {sx : List (Option Nat)} (e : Extents sx) (r v : Nat)
    (h : static_extent sx r = some v) : e.extent r = v := by
  unfold Extents.extent
  rw [h]

theorem extent_of_dynamic {sx : List (Option Nat)} (e : Extents sx) (r : Nat)
    (h : static_extent sx r = none) : e.extent r = e.vals.getD r 0 := by
  unfold Extents.extent
  rw [h]

theorem extent_rank_one (nx : Option Nat) (s : Nat) :
    (Extents.of_values [nx] [s]).extent 0 = nx.getD s := by
  cases nx <;> rfl

/-- Dimension 0 of an inner extents object of rank at least 2. -/
theorem inner_extent_zero (sx : List (Option Nat)) (aps : Option Nat)
    (e : Extents (inner_extents_left.type sx aps)) (h : 2 ≤ sx.length) :
    e.extent 0 = aps.getD (e.vals.getD 0 0) := by
  unfold Extents.extent
  rw [static_extent_inner_type_zero sx aps h]
  cases aps <;> rfl

/-- A dimension of an inner extents object that the substitution leaves alone. -/
theorem inner_extent_keep {sx : List (Option Nat)} (aps : Option Nat) (E : Extents sx)
    (e : Extents (inner_extents_left.type sx aps)) (r : Nat)
    (hs : static_extent (inner_extents_left.type sx aps) r = static_extent sx r)
    (hv : e.vals.getD r 0 = E.extent r) : e.extent r = E.extent r := by
  unfold Extents.extent at hv ⊢
  rw [hs]
  cases hx : static_extent sx r with
  | some v => rfl
  | none => rw [hx] at hv; simpa using hv

theorem construct_padding_vals {bits : Nat} {sx : List (Option Nat)} (aps : Option Nat)
    (E : Extents sx) (P : Nat) (h : 2 ≤ sx.length) :
    (inner_extents_left.construct_padding bits aps E P).vals
      = (List.range sx.length).map
          (fun i =>
            if i = 0 then aps.getD (find_aligned_offset bits P (E.extent 0))
            else E.extent i) := by
  unfold inner_extents_left.construct_padding
  rw [if_neg (by omega)]
  simp only [Extents.retype, substitute_extents.construct_with,
    substitute_extents.construct_with_type, Extents.of_values]
  rw [← Extents.of_values, extent_rank_one]

theorem construct_vals {bits : Nat} {sx : List (Option Nat)} (aps ps : Option Nat) (E : Extents sx)
    (h : 2 ≤ sx.length) :
    (inner_extents_left.construct bits aps ps E).vals
      = (List.range sx.length).map
          (fun i => if i = 0 then
              (match ps with
               | none => E.extent 0
               | some p =>
                 match static_extent sx 0 with
                 | none => aps.getD (find_aligned_offset bits p (E.extent 0))
                 | some _ => aps.getD 0)
            else E.extent i) := by
  unfold inner_extents_left.construct
  rw [if_neg (by omega)]
  cases ps with
  | none =>
    simp only [Extents.retype, substitute_extents.construct, Extents.of_values]
    apply List.map_congr_left
    intro i _
    by_cases hi : i = 0
    · simp [hi]
    · simp [hi]
  | some p =>
    cases hx : static_extent sx 0 with
    | none =>
      simp only [Extents.retype, substitute_extents.construct_with,
        substitute_extents.construct_with_type, Extents.of_values]
      rw [← Extents.of_values, extent_rank_one]
    | some e0 =>
      simp only [Extents.retype, substitute_extents.construct_with,
        substitute_extents.construct_with_type, Extents.of_values]
      rw [← Extents.of_values, extent_rank_one]

theorem rounding_bits_dynamic_extent (w : Widths) (ps : Option Nat) (sx : List (Option Nat))
    (hx : static_extent sx 0 = none) : rounding_bits w ps sx = w.index_bits := by
  unfold rounding_bits
  rw [hx]
  cases ps <;> rfl

theorem rounding_bits_static (w : Widths) (P e0 : Nat) (sx : List (Option Nat))
    (hx : static_extent sx 0 = some e0) : rounding_bits w (some P) sx = w.size_bits := by
  unfold rounding_bits
  rw [hx]

/-- The resolved padding stride, or else the run-time rounding, is the rounding done in the
type that `rounding_bits` names. -/
theorem actual_padding_getD {sx : List (Option Nat)} (w : Widths) (ps : Option Nat)
    (E : Extents sx) (P : Nat) (h : 2 ≤ sx.length) (hps : ps = none ∨ ps = some P) :
    (get_actual_padding_stride w.size_bits sx ps).getD
        (find_aligned_offset w.index_bits P (E.extent 0))
      = find_aligned_offset (rounding_bits w ps sx) P (E.extent 0) := by
  unfold get_actual_padding_stride
  rw [if_neg (by omega)]
  rcases hps with rfl | rfl
  · rfl
  · cases hx : static_extent sx 0 with
    | none => rw [rounding_bits_dynamic_extent w _ sx hx]; rfl
    | some e0 =>
      rw [rounding_bits_static w P e0 sx hx]
      simp [extent_of_static E 0 e0 hx]

theorem actual_padding_dynamic {w : Widths} {sx : List (Option Nat)} (h : 2 ≤ sx.length) :
    get_actual_padding_stride w.size_bits sx none = none := by
  unfold get_actual_padding_stride
  rw [if_neg (by omega)]

theorem option_getD_getD (a : Option Nat) (s : Nat) : a.getD (a.getD s) = a.getD s := by
  cases a <;> rfl

theorem construct_padding_extent_zero {sx : List (Option Nat)} (w : Widths)
    (ps : Option Nat) (E : Extents sx) (P : Nat) (h : 2 ≤ sx.length)
    (hps : ps = none ∨ ps = some P) :
    (inner_extents_left.construct_padding w.index_bits
        (get_actual_padding_stride w.size_bits sx ps) E P).extent 0
      = find_aligned_offset (rounding_bits w ps sx) P (E.extent 0) := by
  rw [inner_extent_zero _ _ _ h, construct_padding_vals _ E P h,
    getD_range_map _ _ _ _ (by omega), if_pos rfl, option_getD_getD,
    actual_padding_getD w ps E P h hps]

theorem construct_padding_extent_succ {bits : Nat} {sx : List (Option Nat)} (aps : Option Nat)
    (E : Extents sx) (P r : Nat) (hr : 1 ≤ r) (h : r < sx.length) :
    (inner_extents_left.construct_padding bits aps E P).extent r = E.extent r := by
  apply inner_extent_keep aps E _ r (static_extent_inner_type_succ sx aps r hr h)
  rw [construct_padding_vals aps E P (by omega), getD_range_map _ _ _ _ h,
    if_neg (by omega)]

theorem retype_inner_small {sx : List (Option Nat)} (aps : Option Nat)
    (E : Extents sx) (r : Nat) (h : sx.length ≤ 1) :
    (E.retype (inner_extents_left.type sx aps)).extent r = E.extent r := by
  unfold Extents.retype Extents.extent
  rw [static_extent_inner_type_small sx aps r h]

theorem construct_padding_small {bits : Nat} {sx : List (Option Nat)} (aps : Option Nat)
    (E : Extents sx) (P r : Nat) (h : sx.length ≤ 1) :
    (inner_extents_left.construct_padding bits aps E P).extent r = E.extent r := by
  unfold inner_extents_left.construct_padding
  rw [if_pos h]
  exact retype_inner_small aps E r h

theorem construct_extent_zero_static {sx : List (Option Nat)} (w : Widths) (P : Nat)
    (E : Extents sx) (h : 2 ≤ sx.length) :
    (inner_extents_left.construct w.index_bits
        (get_actual_padding_stride w.size_bits sx (some P)) (some P) E).extent 0
      = find_aligned_offset (rounding_bits w (some P) sx) P (E.extent 0) := by
  rw [inner_extent_zero _ _ _ h, construct_vals _ _ E h,
    getD_range_map _ _ _ _ (by omega), if_pos rfl]
  have ha := actual_padding_getD w (some P) E P h (Or.inr rfl)
  cases hx : static_extent sx 0 with
  | none =>
    show (get_actual_padding_stride w.size_bits sx (some P)).getD
        ((get_actual_padding_stride w.size_bits sx (some P)).getD
          (find_aligned_offset w.index_bits P (E.extent 0))) = _
    rw [option_getD_getD, ha]
  | some e0 =>
    simp only [option_getD_getD]
    rw [rounding_bits_static w P e0 sx hx]
    unfold get_actual_padding_stride
    rw [if_neg (by omega), hx]
    simp [extent_of_static E 0 e0 hx]

theorem construct_extent_zero_dynamic {w : Widths} {sx : List (Option Nat)} (E : Extents sx)
    (h : 2 ≤ sx.length) :
    (inner_extents_left.construct w.index_bits
        (get_actual_padding_stride w.size_bits sx none) none E).extent 0
      = E.extent 0 := by
  rw [inner_extent_zero _ _ _ h, construct_vals _ _ E h,
    getD_range_map _ _ _ _ (by omega), if_pos rfl, actual_padding_dynamic h]
  rfl

theorem construct_extent_succ {bits : Nat} {sx : List (Option Nat)} (aps ps : Option Nat)
    (E : Extents sx) (r : Nat) (hr : 1 ≤ r) (h : r < sx.length) :
    (inner_extents_left.construct bits aps ps E).extent r = E.extent r := by
  apply inner_extent_keep aps E _ r (static_extent_inner_type_succ sx aps r hr h)
  rw [construct_vals aps ps E (by omega), getD_range_map _ _ _ _ h, if_neg (by omega)]

theorem construct_small {bits : Nat} {sx : List (Option Nat)} (aps ps : Option Nat)
    (E : Extents sx) (r : Nat) (h : sx.length ≤ 1) :
    (inner_extents_left.construct bits aps ps E).extent r = E.extent r := by
  unfold inner_extents_left.construct
  rw [if_pos h]
  exact retype_inner_small aps E r h

theorem construct_other_small {sx : List (Option Nat)} (aps : Option Nat)
    (E : Extents sx) (s r : Nat) (h : sx.length ≤ 1) :
    (inner_extents_left.construct_other aps E s).extent r = E.extent r := by
  unfold inner_extents_left.construct_other
  rw [if_pos h]
  exact retype_inner_small aps E r h

/-! ### Strides of the column-major mapping -/

theorem layout_left_stride_zero {sx : List (Option Nat)} (m : layout_left.mapping sx) :
    m.stride 0 = 1 := by
  simp [layout_left.mapping.stride]

theorem layout_left_stride_succ {sx : List (Option Nat)} (m : layout_left.mapping sx)
    (r : Nat) : m.stride (r + 1) = m.stride r * m.extents.extent r := by
  simp [layout_left.mapping.stride, List.range_succ, List.foldl_append]

theorem layout_left_stride_one {sx : List (Option Nat)} (m : layout_left.mapping sx) :
    m.stride 1 = m.extents.extent 0 := by
  rw [layout_left_stride_succ, layout_left_stride_zero, Nat.one_mul]

theorem layout_left_span_eq_stride {sx : List (Option Nat)} (m : layout_left.mapping sx) :
    m.required_span_size = m.stride sx.length := rfl

/-- The constructor from a shape and a padding value passes its assertion when the value
matches the configuration. -/
theorem of_extents_padding_some (w : Widths) {sx : List (Option Nat)} (ps : Option Nat)
    (E : Extents sx) (v : Int)
    (hps : ps = none ∨ ps = some (static_cast w.index_bits v)) :
    layout_left_padded.mapping.of_extents_padding w ps E v
      = some
          ⟨⟨inner_extents_left.construct_padding w.index_bits
              (get_actual_padding_stride w.size_bits sx ps) E (static_cast w.index_bits v)⟩,
           unpadded_extent_type_impl.construct E⟩ := by
  simp only [layout_left_padded.mapping.of_extents_padding, if_pos hps]

theorem extents_eq_iff {sx sy : List (Option Nat)} (a : Extents sx) (b : Extents sy) :
    a.eq b = true ↔ sx.length = sy.length ∧ ∀ r, r < sx.length → a.extent r = b.extent r := by
  simp [Extents.eq, List.all_eq_true]

theorem unpadded_type_static (sx : List (Option Nat)) (h : 1 ≤ sx.length) :
    static_extent (unpadded_extent_type_impl.type sx) 0 = static_extent sx 0 := by
  unfold unpadded_extent_type_impl.type
  rw [if_neg (by omega)]
  rfl

theorem unpadded_construct_extent {sx : List (Option Nat)} (E : Extents sx)
    (h : 1 ≤ sx.length) : (unpadded_extent_type_impl.construct E).extent 0 = E.extent 0 := by
  unfold Extents.extent
  rw [unpadded_type_static sx h]
  cases hx : static_extent sx 0 with
  | some v => rfl
  | none =>
    have hE := extent_of_dynamic E 0 hx
    simp only [unpadded_extent_type_impl.construct, if_neg (show ¬ sx.length = 0 by omega),
      Extents.of_values, hE]
    rfl

theorem mapping_extents_vals {w : Widths} {ps : Option Nat} {sx : List (Option Nat)}
    (m : layout_left_padded.mapping w ps sx) (h : 1 ≤ sx.length) :
    m.extents.vals
      = (List.range sx.length).map
          (fun i => if i = 0 then m.unpadded_extent.extent 0
            else m.inner_mapping.extents.extent i) := by
  unfold layout_left_padded.mapping.extents
  rw [if_neg (by omega)]
  simp only [substitute_extents.construct_with_type, Extents.of_values, inner_type_length]

/-- Dimension 0 of the reported shape is the retained true size. -/
theorem mapping_extents_zero {w : Widths} {ps : Option Nat} {sx : List (Option Nat)}
    (m : layout_left_padded.mapping w ps sx) (h : 1 ≤ sx.length) :
    m.extents.extent 0 = m.unpadded_extent.extent 0 := by
  cases hx : static_extent sx 0 with
  | some v =>
    rw [extent_of_static _ 0 v hx,
      extent_of_static m.unpadded_extent 0 v (by rw [unpadded_type_static sx h, hx])]
  | none =>
    rw [extent_of_dynamic _ 0 hx, mapping_extents_vals m h, getD_range_map _ _ _ _ (by omega),
      if_pos rfl]

/-- The other dimensions of the reported shape are those of the inner shape. -/
theorem mapping_extents_succ {w : Widths} {ps : Option Nat} {sx : List (Option Nat)}
    (m : layout_left_padded.mapping w ps sx) (r : Nat) (hr : 1 ≤ r) (h : r < sx.length) :
    m.extents.extent r = m.inner_mapping.extents.extent r := by
  cases hx : static_extent sx r with
  | some v =>
    rw [extent_of_static _ r v hx,
      extent_of_static m.inner_mapping.extents r v
        (by rw [static_extent_inner_type_succ sx _ r hr h, hx])]
  | none =>
    rw [extent_of_dynamic _ r hx, mapping_extents_vals m (by omega),
      getD_range_map _ _ _ _ h, if_neg (by omega)]

theorem of_extents_extent (w : Widths) {sx : List (Option Nat)} (ps : Option Nat) (E : Extents sx)
    (r : Nat) (h : r < sx.length) :
    (layout_left_padded.mapping.of_extents w ps E).extents.extent r = E.extent r := by
  by_cases hr : r = 0
  · subst hr
    rw [mapping_extents_zero _ (by omega)]
    exact unpadded_construct_extent E (by omega)
  · rw [mapping_extents_succ _ r (by omega) h]
    exact construct_extent_succ _ ps E r (by omega) h

theorem of_extents_padding_extent (w : Widths) {sx : List (Option Nat)} (ps : Option Nat)
    (E : Extents sx) (P : Nat) (r : Nat) (h : r < sx.length) :
    (⟨⟨inner_extents_left.construct_padding w.index_bits
            (get_actual_padding_stride w.size_bits sx ps) E P⟩,
        unpadded_extent_type_impl.construct E⟩ :
        layout_left_padded.mapping w ps sx).extents.extent r
      = E.extent r := by
  by_cases hr : r = 0
  · subst hr
    rw [mapping_extents_zero _ (by omega)]
    exact unpadded_construct_extent E (by omega)
  · rw [mapping_extents_succ _ r (by omega) h]
    exact construct_padding_extent_succ _ E P r (by omega) h

/-! ### Offsets -/

theorem mapping_span_eq_stride {w : Widths} {ps : Option Nat} {sx : List (Option Nat)}
    (m : layout_left_padded.mapping w ps sx) :
    m.required_span_size = m.inner_mapping.stride sx.length := by
  rw [layout_left_padded.mapping.required_span_size, layout_left_span_eq_stride,
    inner_type_length]

theorem convert_inner_small {ox : List (Option Nat)} (e : Extents ox) (sx : List (Option Nat))
    (aps : Option Nat) (r : Nat) (h : sx.length ≤ 1) :
    (e.convert (inner_extents_left.type sx aps)).extent r = (e.convert sx).extent r := by
  unfold Extents.extent
  rw [static_extent_inner_type_small sx aps r h]
  rfl

theorem of_extents_padding_eq_some (w : Widths) {sx : List (Option Nat)} (ps : Option Nat)
    (E : Extents sx) (v : Int) (m : layout_left_padded.mapping w ps sx)
    (h : layout_left_padded.mapping.of_extents_padding w ps E v = some m) :
    (ps = none ∨ ps = some (static_cast w.index_bits v))
    ∧ m = ⟨⟨inner_extents_left.construct_padding w.index_bits
              (get_actual_padding_stride w.size_bits sx ps) E (static_cast w.index_bits v)⟩,
           unpadded_extent_type_impl.construct E⟩ := by
  unfold layout_left_padded.mapping.of_extents_padding at h
  by_cases hps : ps = none ∨ ps = some (static_cast w.index_bits v)
  · rw [if_pos hps] at h
    exact ⟨hps, (Option.some.inj h).symm⟩
  · rw [if_neg hps] at h
    cases h

/-- Every constructor of a rank-1 mapping leaves the inner dimension 0 equal to the retained
true size. -/
theorem constructed_rank_one {w : Widths} {ps : Option Nat} {sx : List (Option Nat)}
    (m : layout_left_padded.mapping w ps sx) (hm : m.constructed) (h : sx.length = 1) :
    m.inner_mapping.extents.extent 0 = m.unpadded_extent.extent 0 := by
  cases hm with
  | of_extents w ps ext =>
    show (inner_extents_left.construct _ _ ps ext).extent 0 = _
    rw [construct_small _ ps ext 0 (by omega)]
    exact (unpadded_construct_extent ext (by omega)).symm
  | of_extents_padding w ps ext pv m hsome =>
    obtain ⟨-, rfl⟩ := of_extents_padding_eq_some w ps ext pv m hsome
    show (inner_extents_left.construct_padding _ _ ext _).extent 0 = _
    rw [construct_padding_small _ ext _ 0 (by omega)]
    exact (unpadded_construct_extent ext (by omega)).symm
  | of_layout_left w ps sx other =>
    show (inner_extents_left.construct_other _ _ _).extent 0 = _
    rw [construct_other_small _ _ _ 0 (by omega)]
    exact (unpadded_construct_extent _ (by omega)).symm
  | of_layout_stride w ps sx other =>
    show (inner_extents_left.construct_other _ _ _).extent 0 = _
    rw [construct_other_small _ _ _ 0 (by omega)]
    exact (unpadded_construct_extent _ (by omega)).symm
  | of_layout_left_padded w ps sx other _ =>
    show (inner_extents_left.construct_other _ _ _).extent 0 = _
    rw [construct_other_small _ _ _ 0 (by omega)]
    exact (unpadded_construct_extent _ (by omega)).symm
  | of_layout_right_padded w ps sx other =>
    show (other.extents.convert _).extent 0 = _
    rw [convert_inner_small _ sx _ 0 (by omega)]
    exact (unpadded_construct_extent _ (by omega)).symm

theorem layout_left_offset_single {sx : List (Option Nat)} (m : layout_left.mapping sx)
    (i : Nat) : m.offset [i] = i := by
  simp [layout_left.mapping.offset, layout_left.mapping.compute_offset]

/-! ### The mirror conversion -/

theorem layout_left_stride_eq_prod {ix : List (Option Nat)} (m : layout_left.mapping ix)
    (r : Nat) : m.stride r = ∏ j ∈ Finset.range r, m.extents.extent j := by
  induction r with
  | zero => simp [layout_left_stride_zero]
  | succ r ih => rw [layout_left_stride_succ, ih, Finset.prod_range_succ]

theorem prod_range_shift (f : Nat → Nat) (r len : Nat) :
    ∏ j ∈ Finset.range (len + 1), f (r + j)
      = f r * ∏ j ∈ Finset.range len, f (r + 1 + j) := by
  rw [Finset.prod_range_succ', Nat.add_zero, Nat.mul_comm]
  congr 1
  apply Finset.prod_congr rfl
  intro j _
  congr 1
  omega

/-- Every value below the product of the sizes is the column-major offset of an index tuple
within those sizes. -/
theorem layout_left_compute_offset_surjective {ix : List (Option Nat)}
    (m : layout_left.mapping ix) (len r k : Nat)
    (hk : k < ∏ j ∈ Finset.range len, m.extents.extent (r + j)) :
    ∃ idxs : List Nat, idxs.length = len
      ∧ (∀ j, j < len → idxs.getD j 0 < m.extents.extent (r + j))
      ∧ m.compute_offset r idxs = k := by
  induction len generalizing r k with
  | zero =>
    refine ⟨[], rfl, fun j hj => absurd hj (Nat.not_lt_zero j), ?_⟩
    simp at hk
    simp [layout_left.mapping.compute_offset, hk]
  | succ len ih =>
    rw [prod_range_shift (fun j => m.extents.extent j) r len] at hk
    have hpos : 0 < m.extents.extent r := by
      rcases Nat.eq_zero_or_pos (m.extents.extent r) with h | h
      · rw [h, Nat.zero_mul] at hk
        exact absurd hk (Nat.not_lt_zero k)
      · exact h
    have hq : k / m.extents.extent r
        < ∏ j ∈ Finset.range len, m.extents.extent (r + 1 + j) := by
      rw [Nat.div_lt_iff_lt_mul hpos, Nat.mul_comm]
      exact hk
    obtain ⟨idxs, hlen, hb, hoff⟩ := ih (r + 1) (k / m.extents.extent r) hq
    refine ⟨(k % m.extents.extent r) :: idxs, by simp [hlen], ?_, ?_⟩
    · intro j hj
      cases j with
      | zero => simpa using Nat.mod_lt k hpos
      | succ j =>
        have := hb j (by omega)
        simpa [Nat.add_assoc, Nat.add_comm 1 j] using this
    · simp only [layout_left.mapping.compute_offset, hoff]
      exact Nat.div_add_mod' k (m.extents.extent r)

theorem is_always_exhaustive_padded (w : Widths) {sx : List (Option Nat)} (ps : Option Nat)
    (h : 2 ≤ sx.length)
    (hae : layout_left_padded.mapping.is_always_exhaustive w ps sx = true) :
    ∃ P E0, ps = some P ∧ static_extent sx 0 = some E0
      ∧ find_aligned_offset w.size_bits P E0 = E0 := by
  have h1 : ¬ sx.length ≤ 1 := by omega
  unfold layout_left_padded.mapping.is_always_exhaustive at hae
  rw [static_extent_inner_type_zero sx _ h] at hae
  unfold get_actual_padding_stride at hae
  simp only [h1, if_false, decide_False, Bool.false_or] at hae
  cases ps with
  | none => simp at hae
  | some P =>
    cases hx : static_extent sx 0 with
    | none => simp [hx] at hae
    | some e0 =>
      rw [hx] at hae
      have hb : e0 = find_aligned_offset w.size_bits P e0 := by simpa using hae
      exact ⟨P, e0, rfl, rfl, hb.symm⟩

theorem is_exhaustive_of_inner_eq {w : Widths} {ps : Option Nat} {sx : List (Option Nat)}
    (inner : layout_left.mapping
      (inner_extents_left.type sx (get_actual_padding_stride w.size_bits sx ps)))
    (E : Extents sx) (h : 1 ≤ sx.length → inner.extents.extent 0 = E.extent 0) :
    (⟨inner, unpadded_extent_type_impl.construct E⟩ :
        layout_left_padded.mapping w ps sx).is_exhaustive = true := by
  by_cases h0 : sx.length = 0
  · simp [layout_left_padded.mapping.is_exhaustive, h0]
  · simp [layout_left_padded.mapping.is_exhaustive, h0, h (by omega),
      unpadded_construct_extent E (by omega)]

/-! ### Equality -/

theorem mapping_eq_iff {w ow : Widths} {ps ops : Option Nat} {sx ox : List (Option Nat)}
    (a : layout_left_padded.mapping w ps sx) (b : layout_left_padded.mapping ow ops ox) :
    a.eq b = true
      ↔ (sx.length = ox.length ∧ ∀ r, r < sx.length → a.extents.extent r = b.extents.extent r)
        ∧ (sx.length ≤ 1 ∨ a.stride 1 = b.stride 1) := by
  unfold layout_left_padded.mapping.eq
  rw [← extents_eq_iff]
  by_cases h : sx.length ≤ 1
  · have h2 : ¬ sx.length > 1 := by omega
    simp [h, h2]
  · have h2 : sx.length > 1 := by omega
    simp [h, h2]

/-- C2: for a shape E of any rank and a padding value v accepted by the configuration
(configured padding stride Dynamic, or Static and equal to v as the constructor compares it,
converted to the index type), the mapping constructed from E and v reports a shape equal to
E, and so does the mapping constructed from E alone: the reported shape has the size of E in
every dimension. -/
theorem C2_shape_round_trip (w : Widths) {sx : List (Option Nat)} (ps : Option Nat)
    (E : Extents sx) (v : Int)
    (hps : ps = none ∨ ps = some (static_cast w.index_bits v)) :
    (∃ m, layout_left_padded.mapping.of_extents_padding w ps E v = some m
        ∧ m.extents.eq E = true
        ∧ ∀ r, r < sx.length → m.extents.extent r = E.extent r)
    ∧ (layout_left_padded.mapping.of_extents w ps E).extents.eq E = true
    ∧ ∀ r, r < sx.length →
        (layout_left_padded.mapping.of_extents w ps E).extents.extent r = E.extent r := by
  refine ⟨⟨_, of_extents_padding_some w ps E v hps, ?_, ?_⟩, ?_, ?_⟩
  · rw [extents_eq_iff]
    exact ⟨rfl, fun r h => of_extents_padding_extent w ps E _ r h⟩
  · exact fun r h => of_extents_padding_extent w ps E _ r h
  · rw [extents_eq_iff]
    exact ⟨rfl, fun r h => of_extents_extent w ps E r h⟩
  · exact fun r h => of_extents_extent w ps E r h

/-- C2 at the shape (3, 4) with a static dimension 0, configured padding stride Static(8)
and run-time padding 8. -/
theorem C2_shape_round_trip_witness :
    ((some 8 : Option Nat) = none ∨ (some 8 : Option Nat) = some (static_cast 64 8))
    ∧ (∃ m, layout_left_padded.mapping.of_extents_padding ⟨64, 64⟩ (some 8)
          (Extents.of_values [some 3, none] [3, 4]) 8 = some m
        ∧ m.extents.eq (Extents.of_values [some 3, none] [3, 4]) = true
        ∧ ∀ r, r < [some 3, (none : Option Nat)].length →
            m.extents.extent r = (Extents.of_values [some 3, none] [3, 4]).extent r)
    ∧ (layout_left_padded.mapping.of_extents ⟨64, 64⟩ (some 8)
          (Extents.of_values [some 3, none] [3, 4])).extents.eq
        (Extents.of_values [some 3, none] [3, 4]) = true :=
  ⟨by decide,
    (C2_shape_round_trip ⟨64, 64⟩ (some 8) (Extents.of_values [some 3, none] [3, 4]) 8
      (by decide)).1,
    (C2_shape_round_trip ⟨64, 64⟩ (some 8) (Extents.of_values [some 3, none] [3, 4]) 8
      (by decide)).2.1⟩

/-- C8: two sibling padded mappings a and b, whatever their configured padding strides,
compare equal exactly when their shapes are equal (same rank, same size in every
dimension) and, for rank above 1, their stride(1) values match; the mapping with configured
padding Static(8) and the mapping with configured padding Dynamic given run-time padding 8,
both over the true shape (3, 4), compare equal, whatever the widths of the integer types. -/
theorem C8_equality {w ow : Widths} {ps ops : Option Nat} {sx ox : List (Option Nat)}
    (a : layout_left_padded.mapping w ps sx) (b : layout_left_padded.mapping ow ops ox) :
    (a.eq b = true
      ↔ a.extents.eq b.extents = true ∧ (sx.length ≤ 1 ∨ a.stride 1 = b.stride 1))
    ∧ (a.eq b = true
      ↔ (sx.length = ox.length ∧ ∀ r, r < sx.length → a.extents.extent r = b.extents.extent r)
        ∧ (sx.length ≤ 1 ∨ a.stride 1 = b.stride 1))
    ∧ (∀ w0 : Widths,
        ∃ m, layout_left_padded.mapping.of_extents_padding w0 none
          (Extents.of_values [none, none] [3, 4]) 8 = some m
        ∧ (layout_left_padded.mapping.of_extents w0 (some 8)
            (Extents.of_values [none, none] [3, 4])).eq m = true
        ∧ m.eq (layout_left_padded.mapping.of_extents w0 (some 8)
            (Extents.of_values [none, none] [3, 4])) = true) := by
  have key : a.eq b = true
      ↔ a.extents.eq b.extents = true ∧ (sx.length ≤ 1 ∨ a.stride 1 = b.stride 1) := by
    unfold layout_left_padded.mapping.eq
    by_cases h : sx.length ≤ 1
    · have h2 : ¬ sx.length > 1 := by omega
      simp [h, h2]
    · have h2 : sx.length > 1 := by omega
      simp [h, h2]
  refine ⟨key, ?_, ?_⟩
  · rw [key, extents_eq_iff]
  · intro w0
    have hcast : find_aligned_offset w0.index_bits (static_cast w0.index_bits 8) 3
        = find_aligned_offset w0.index_bits 8 3 := by
      have hc : static_cast w0.index_bits 8 = 8 % 2 ^ w0.index_bits := by
        unfold static_cast
        have h8 : ((8 : Nat) : Int) = 8 := rfl
        rw [← h8, ← Int.natCast_mod, Int.toNat_natCast]
      rw [hc]
      by_cases h4 : 4 ≤ w0.index_bits
      · have hpow : 2 ^ 4 ≤ 2 ^ w0.index_bits := Nat.pow_le_pow_right (by decide) h4
        rw [Nat.mod_eq_of_lt (by omega)]
      · have h3 : w0.index_bits < 4 := by omega
        generalize w0.index_bits = ib at h3
        interval_cases ib <;> decide
    have hs : (layout_left_padded.mapping.of_extents w0 (some 8)
          (Extents.of_values [none, none] [3, 4])).stride 1
        = find_aligned_offset w0.index_bits 8 3 := by
      rw [layout_left_padded.mapping.stride, layout_left_stride_one]
      exact construct_extent_zero_static w0 8 (Extents.of_values [none, none] [3, 4])
        (by decide)
    have hm : (inner_extents_left.construct_padding w0.index_bits
          (get_actual_padding_stride w0.size_bits [none, none] none)
          (Extents.of_values [none, none] [3, 4]) (static_cast w0.index_bits 8)).extent 0
        = find_aligned_offset w0.index_bits 8 3 := by
      rw [← hcast]
      exact construct_padding_extent_zero w0 none (Extents.of_values [none, none] [3, 4]) _
        (by decide) (Or.inl rfl)
    have hext : ∀ r, r < [(none : Option Nat), none].length →
        (layout_left_padded.mapping.of_extents w0 (some 8)
            (Extents.of_values [none, none] [3, 4])).extents.extent r
          = (⟨⟨inner_extents_left.construct_padding w0.index_bits
                  (get_actual_padding_stride w0.size_bits [none, none] none)
                  (Extents.of_values [none, none] [3, 4]) (static_cast w0.index_bits 8)⟩,
                unpadded_extent_type_impl.construct (Extents.of_values [none, none] [3, 4])⟩ :
              layout_left_padded.mapping w0 none [none, none]).extents.extent r := by
      intro r hr
      rw [of_extents_extent w0 (some 8) _ r hr, of_extents_padding_extent w0 none _ _ r hr]
    refine ⟨_, of_extents_padding_some w0 none (Extents.of_values [none, none] [3, 4]) 8
      (Or.inl rfl), ?_, ?_⟩
    · rw [mapping_eq_iff]
      refine ⟨⟨rfl, hext⟩, Or.inr ?_⟩
      rw [hs, layout_left_padded.mapping.stride, layout_left_stride_one]
      exact hm.symm
    · rw [mapping_eq_iff]
      refine ⟨⟨rfl, fun r hr => (hext r hr).symm⟩, Or.inr ?_⟩
      rw [hs, layout_left_padded.mapping.stride, layout_left_stride_one]
      exact hm

/-- C9: for every mapping, isExhaustive() is true when the rank is 0; when the rank is at
least 1 it is true exactly when the inner dimension-0 size equals the true dimension-0 size
(the retained extent, which is shape().extent(0)); and when the rank is at least 2 that is
the condition stride(1) == shape().extent(0). -/
theorem C9_is_exhaustive {w : Widths} {ps : Option Nat} {sx : List (Option Nat)}
    (m : layout_left_padded.mapping w ps sx) :
    (sx.length = 0 → m.is_exhaustive = true)
    ∧ (1 ≤ sx.length →
        m.unpadded_extent.extent 0 = m.extents.extent 0
        ∧ (m.is_exhaustive = true
            ↔ m.inner_mapping.extents.extent 0 = m.extents.extent 0))
    ∧ (2 ≤ sx.length → (m.is_exhaustive = true ↔ m.stride 1 = m.extents.extent 0)) := by
  refine ⟨?_, ?_, ?_⟩
  · intro h
    simp [layout_left_padded.mapping.is_exhaustive, h]
  · intro h
    have h0 : ¬ sx.length = 0 := by omega
    rw [mapping_extents_zero m h]
    simp [layout_left_padded.mapping.is_exhaustive, h0]
  · intro h
    have h0 : ¬ sx.length = 0 := by omega
    rw [mapping_extents_zero m (by omega), layout_left_padded.mapping.stride,
      layout_left_stride_one]
    simp [layout_left_padded.mapping.is_exhaustive, h0]

/-- C9 at the mapping of the shape (3, 4) padded to 8: not exhaustive, stride(1) = 8. -/
theorem C9_is_exhaustive_witness :
    2 ≤ [(none : Option Nat), none].length
    ∧ ((layout_left_padded.mapping.of_extents ⟨64, 64⟩ (some 8)
          (Extents.of_values [none, none] [3, 4])).is_exhaustive = true
        ↔ (layout_left_padded.mapping.of_extents ⟨64, 64⟩ (some 8)
            (Extents.of_values [none, none] [3, 4])).stride 1
          = (layout_left_padded.mapping.of_extents ⟨64, 64⟩ (some 8)
            (Extents.of_values [none, none] [3, 4])).extents.extent 0) :=
  ⟨by decide,
    (C9_is_exhaustive (layout_left_padded.mapping.of_extents ⟨64, 64⟩ (some 8)
      (Extents.of_values [none, none] [3, 4]))).2.2 (by decide)⟩

/-- C10 (amended): isAlwaysExhaustive() is true exactly when the rank is at most 1, or the
configured padding stride is Static(P), dimension 0 is Static(E0) and the resolved padded
size, which is the rounding of E0 up to P as the code computes it in size_t, equals E0;
when E0 + P - 1 is representable in size_t that resolved size is roundUp(P, E0), so that
isAlwaysExhaustive() is true exactly when the rank is at most 1, or the configured padding
stride is Static(P), dimension 0 is Static(E0) and roundUp(P, E0) = E0; and it is false for
rank at least 2 whenever the padding stride or dimension 0 is Dynamic. -/
theorem C10_is_always_exhaustive (w : Widths) (ps : Option Nat) (sx : List (Option Nat)) :
    (layout_left_padded.mapping.is_always_exhaustive w ps sx = true
      ↔ sx.length ≤ 1
        ∨ ∃ P E0, ps = some P ∧ static_extent sx 0 = some E0
            ∧ find_aligned_offset w.size_bits P E0 = E0)
    ∧ ((∀ P E0, ps = some P → static_extent sx 0 = some E0 → E0 + P - 1 < 2 ^ w.size_bits) →
        (layout_left_padded.mapping.is_always_exhaustive w ps sx = true
          ↔ sx.length ≤ 1
            ∨ ∃ P E0, ps = some P ∧ static_extent sx 0 = some E0 ∧ roundUp P E0 = E0))
    ∧ (2 ≤ sx.length → (ps = none ∨ static_extent sx 0 = none) →
        layout_left_padded.mapping.is_always_exhaustive w ps sx = false) := by
  have key : 2 ≤ sx.length →
      (layout_left_padded.mapping.is_always_exhaustive w ps sx = true
        ↔ ∃ P E0, ps = some P ∧ static_extent sx 0 = some E0
            ∧ find_aligned_offset w.size_bits P E0 = E0) := by
    intro h
    have h1 : ¬ sx.length ≤ 1 := by omega
    unfold layout_left_padded.mapping.is_always_exhaustive
    rw [static_extent_inner_type_zero sx _ h]
    unfold get_actual_padding_stride
    simp only [h1, if_false, decide_False, Bool.false_or]
    cases ps with
    | none => simp
    | some P =>
      cases hx : static_extent sx 0 with
      | none => simp
      | some e0 =>
        constructor
        · intro hb
          have hb2 : e0 = find_aligned_offset w.size_bits P e0 := by simpa using hb
          exact ⟨P, e0, rfl, rfl, hb2.symm⟩
        · rintro ⟨P2, E0, hP, hE, hr⟩
          cases hP
          cases hE
          simp [hr]
  have main : layout_left_padded.mapping.is_always_exhaustive w ps sx = true
      ↔ sx.length ≤ 1
        ∨ ∃ P E0, ps = some P ∧ static_extent sx 0 = some E0
            ∧ find_aligned_offset w.size_bits P E0 = E0 := by
    by_cases h : sx.length ≤ 1
    · simp [layout_left_padded.mapping.is_always_exhaustive, h]
    · rw [key (by omega)]
      simp [h]
  refine ⟨main, ?_, ?_⟩
  · intro hfit
    rw [main]
    constructor
    · rintro (h | ⟨P, E0, hP, hE, hr⟩)
      · exact Or.inl h
      · refine Or.inr ⟨P, E0, hP, hE, ?_⟩
        rw [← find_aligned_offset_eq_roundUp w.size_bits P E0 (Or.inr (hfit P E0 hP hE))]
        exact hr
    · rintro (h | ⟨P, E0, hP, hE, hr⟩)
      · exact Or.inl h
      · refine Or.inr ⟨P, E0, hP, hE, ?_⟩
        rw [find_aligned_offset_eq_roundUp w.size_bits P E0 (Or.inr (hfit P E0 hP hE))]
        exact hr
  · intro h hd
    rw [← Bool.not_eq_true, key h]
    rintro ⟨P, E0, hP, hE, -⟩
    rcases hd with hd | hd
    · rw [hd] at hP
      cases hP
    · rw [hd] at hE
      cases hE

/-- C10 (amended) on a 64-bit size_t: at rank 2 with a Dynamic padding stride, and at the
static shape (8, 4) with the configured padding stride Static(4). -/
theorem C10_is_always_exhaustive_witness :
    2 ≤ [(some 3 : Option Nat), none].length
    ∧ ((none : Option Nat) = none ∨ static_extent [some 3, none] 0 = none)
    ∧ layout_left_padded.mapping.is_always_exhaustive ⟨64, 64⟩ none [some 3, none] = false
    ∧ (∀ P E0, (some 4 : Option Nat) = some P → static_extent [some 8, some 4] 0 = some E0 →
        E0 + P - 1 < 2 ^ (Widths.mk 64 64).size_bits)
    ∧ (layout_left_padded.mapping.is_always_exhaustive ⟨64, 64⟩ (some 4) [some 8, some 4]
          = true
        ↔ [some 8, some 4].length ≤ 1
          ∨ ∃ P E0, (some 4 : Option Nat) = some P ∧ static_extent [some 8, some 4] 0 = some E0
              ∧ roundUp P E0 = E0) :=
  have hfit : ∀ P E0, (some 4 : Option Nat) = some P →
      static_extent [some 8, some 4] 0 = some E0 →
      E0 + P - 1 < 2 ^ (Widths.mk 64 64).size_bits := by
    intro P E0 hP hE
    cases hP
    cases hE
    decide
  ⟨by decide, by decide,
    (C10_is_always_exhaustive ⟨64, 64⟩ none [some 3, none]).2.2 (by decide) (Or.inl rfl),
    hfit,
    (C10_is_always_exhaustive ⟨64, 64⟩ (some 4) [some 8, some 4]).2.1 hfit⟩

/-- C10 as stated fails. On a 64-bit size_t, at rank 2 with the configured padding stride
Static(9223372036854775809) and dimension 0 Static(9223372036854775809), the rounding
roundUp(P, E0) equals E0, but the code resolves the padded size to 0 (the sum E0 + P - 1
wraps) and isAlwaysExhaustive() is false. -/
theorem C10_counterexample :
    ¬ [some 9223372036854775809, (none : Option Nat)].length ≤ 1
    ∧ static_extent [some 9223372036854775809, none] 0 = some 9223372036854775809
    ∧ roundUp 9223372036854775809 9223372036854775809 = 9223372036854775809
    ∧ get_actual_padding_stride 64 [some 9223372036854775809, none]
        (some 9223372036854775809) = some 0
    ∧ layout_left_padded.mapping.is_always_exhaustive ⟨64, 64⟩ (some 9223372036854775809)
        [some 9223372036854775809, none] = false := by
  refine ⟨by decide, by decide, ?_, by decide, by decide⟩
  rw [roundUp_eq]
  decide

/-- C11: for a true shape of rank at most 1 and every configured or run-time padding value,
every construction mode of the inner shape returns the true shape, whatever the width of the
integer type; isAlwaysExhaustive() is true; every constructed mapping has its inner shape
equal to its true shape and isExhaustive() true; and at rank 1, with true shape (n),
stride(0) = 1, offset(i) = i for 0 <= i < n and requiredSpanSize() = n. The mappings built
from a shape, alone or with a padding value that the constructor accepts, are such mappings
and report that shape. -/
theorem C11_rank_le_one_identity (w : Widths) {sx : List (Option Nat)} (ps : Option Nat)
    (E : Extents sx) (hrank : sx.length ≤ 1) :
    (∀ (bits : Nat) (aps : Option Nat) (P s : Nat),
        (inner_extents_left.construct bits aps ps E).eq E = true
        ∧ (inner_extents_left.construct_padding bits aps E P).eq E = true
        ∧ (inner_extents_left.construct_other aps E s).eq E = true)
    ∧ layout_left_padded.mapping.is_always_exhaustive w ps sx = true
    ∧ (∀ m : layout_left_padded.mapping w ps sx, m.constructed →
        m.inner_mapping.extents.eq m.extents = true
        ∧ m.is_exhaustive = true
        ∧ (sx.length = 1 →
            m.stride 0 = 1
            ∧ (∀ i, i < m.extents.extent 0 → m.offset [i] = i)
            ∧ m.required_span_size = m.extents.extent 0))
    ∧ ((layout_left_padded.mapping.of_extents w ps E).constructed
        ∧ (layout_left_padded.mapping.of_extents w ps E).extents.eq E = true)
    ∧ (∀ v : Int, (ps = none ∨ ps = some (static_cast w.index_bits v)) →
        ∃ m, layout_left_padded.mapping.of_extents_padding w ps E v = some m
          ∧ m.constructed ∧ m.extents.eq E = true) := by
  refine ⟨?_, ?_, ?_, ⟨?_, ?_⟩, ?_⟩
  · intro bits aps P s
    refine ⟨?_, ?_, ?_⟩
    · rw [extents_eq_iff]
      exact ⟨inner_type_length sx aps, fun r _ => construct_small aps ps E r hrank⟩
    · rw [extents_eq_iff]
      exact ⟨inner_type_length sx aps, fun r _ => construct_padding_small aps E P r hrank⟩
    · rw [extents_eq_iff]
      exact ⟨inner_type_length sx aps, fun r _ => construct_other_small aps E s r hrank⟩
  · simp [layout_left_padded.mapping.is_always_exhaustive, hrank]
  · intro m hm
    have hinv : sx.length = 1 →
        m.inner_mapping.extents.extent 0 = m.extents.extent 0 := by
      intro h1
      rw [mapping_extents_zero m (by omega)]
      exact constructed_rank_one m hm h1
    refine ⟨?_, ?_, ?_⟩
    · rw [extents_eq_iff]
      refine ⟨inner_type_length sx _, ?_⟩
      intro r hr
      rw [inner_type_length] at hr
      have hr0 : r = 0 := by omega
      subst hr0
      exact hinv (by omega)
    · by_cases h0 : sx.length = 0
      · simp [layout_left_padded.mapping.is_exhaustive, h0]
      · have h1 : sx.length = 1 := by omega
        simp [layout_left_padded.mapping.is_exhaustive, constructed_rank_one m hm h1]
    · intro h1
      refine ⟨layout_left_stride_zero _, fun i _ => layout_left_offset_single _ i, ?_⟩
      rw [mapping_span_eq_stride, h1, layout_left_stride_one]
      exact hinv h1
  · exact layout_left_padded.mapping.constructed.of_extents w ps E
  · rw [extents_eq_iff]
    exact ⟨rfl, fun r h => of_extents_extent w ps E r h⟩
  · intro v hps
    refine ⟨_, of_extents_padding_some w ps E v hps,
      layout_left_padded.mapping.constructed.of_extents_padding w ps E v _
        (of_extents_padding_some w ps E v hps), ?_⟩
    rw [extents_eq_iff]
    exact ⟨rfl, fun r h => of_extents_padding_extent w ps E _ r h⟩

/-- C11 at the shape (5,) with configured padding stride Static(8), on 64-bit integer
types. -/
theorem C11_rank_le_one_identity_witness :
    [(none : Option Nat)].length ≤ 1
    ∧ (layout_left_padded.mapping.of_extents ⟨64, 64⟩ (some 8)
        (Extents.of_values [none] [5])).constructed
    ∧ [(none : Option Nat)].length = 1
    ∧ 3 < (layout_left_padded.mapping.of_extents ⟨64, 64⟩ (some 8)
        (Extents.of_values [none] [5])).extents.extent 0
    ∧ (layout_left_padded.mapping.of_extents ⟨64, 64⟩ (some 8)
        (Extents.of_values [none] [5])).inner_mapping.extents.eq
          (layout_left_padded.mapping.of_extents ⟨64, 64⟩ (some 8)
            (Extents.of_values [none] [5])).extents = true
    ∧ (layout_left_padded.mapping.of_extents ⟨64, 64⟩ (some 8)
        (Extents.of_values [none] [5])).is_exhaustive = true
    ∧ (layout_left_padded.mapping.of_extents ⟨64, 64⟩ (some 8)
        (Extents.of_values [none] [5])).offset [3] = 3
    ∧ (layout_left_padded.mapping.of_extents ⟨64, 64⟩ (some 8)
        (Extents.of_values [none] [5])).required_span_size
        = (layout_left_padded.mapping.of_extents ⟨64, 64⟩ (some 8)
            (Extents.of_values [none] [5])).extents.extent 0 :=
  have h := C11_rank_le_one_identity ⟨64, 64⟩ (some 8) (Extents.of_values [none] [5])
    (by decide)
  have hm := h.2.2.1 _ h.2.2.2.1.1
  ⟨by decide, h.2.2.2.1.1, by decide, by decide, hm.1, hm.2.1,
    (hm.2.2 (by decide)).2.1 3 (by decide), (hm.2.2 (by decide)).2.2⟩

/-- C12 (amended): constructing a mapping from a shape plus an explicit run-time padding
value v passes the assertion exactly when the configured padding stride is Dynamic or is
Static(p) with p equal to v as converted to the index type (to v itself when the index type
can hold v); when it is Static(p) and the converted v differs from p the construction fails
the assertion, at every rank. -/
theorem C12_padding_value_assert (w : Widths) {sx : List (Option Nat)} (ps : Option Nat)
    (E : Extents sx) (v : Int) :
    ((layout_left_padded.mapping.of_extents_padding w ps E v).isSome = true
      ↔ ps = none ∨ ps = some (static_cast w.index_bits v))
    ∧ (∀ p, ps = some p → static_cast w.index_bits v ≠ p →
        layout_left_padded.mapping.of_extents_padding w ps E v = none)
    ∧ (∀ n : Nat, v = (n : Int) → n < 2 ^ w.index_bits →
        ((layout_left_padded.mapping.of_extents_padding w ps E v).isSome = true
          ↔ ps = none ∨ ps = some n)
        ∧ (∀ p, ps = some p → n ≠ p →
            layout_left_padded.mapping.of_extents_padding w ps E v = none)) := by
  have h1 : (layout_left_padded.mapping.of_extents_padding w ps E v).isSome = true
      ↔ ps = none ∨ ps = some (static_cast w.index_bits v) := by
    unfold layout_left_padded.mapping.of_extents_padding
    by_cases h : ps = none ∨ ps = some (static_cast w.index_bits v)
    · simp [if_pos h, h]
    · simp [if_neg h, h]
  have h2 : ∀ p, ps = some p → static_cast w.index_bits v ≠ p →
      layout_left_padded.mapping.of_extents_padding w ps E v = none := by
    intro p hp hv
    unfold layout_left_padded.mapping.of_extents_padding
    rw [if_neg]
    rintro (h | h)
    · rw [h] at hp
      cases hp
    · rw [h] at hp
      exact hv (Option.some.inj hp)
  refine ⟨h1, h2, ?_⟩
  intro n hn hlt
  have hc : static_cast w.index_bits v = n := by
    rw [hn]
    exact static_cast_of_lt w.index_bits n hlt
  rw [hc] at h1 h2
  exact ⟨h1, h2⟩

/-- C12 (amended) at rank 1, on a 32-bit index type: configured padding stride Static(8)
and run-time padding value 4. -/
theorem C12_padding_value_assert_witness :
    (some 8 : Option Nat) = some 8 ∧ static_cast (Widths.mk 64 32).index_bits 4 ≠ 8
    ∧ layout_left_padded.mapping.of_extents_padding ⟨64, 32⟩ (some 8)
        (Extents.of_values [none] [5]) 4 = none
    ∧ (4 : Int) = ((4 : Nat) : Int) ∧ 4 < 2 ^ (Widths.mk 64 32).index_bits
    ∧ ((layout_left_padded.mapping.of_extents_padding ⟨64, 32⟩ (some 8)
          (Extents.of_values [none] [5]) 4).isSome = true
        ↔ (some 8 : Option Nat) = none ∨ (some 8 : Option Nat) = some 4) :=
  ⟨rfl, by decide,
    (C12_padding_value_assert ⟨64, 32⟩ (some 8) (Extents.of_values [none] [5]) 4).2.1 8 rfl
      (by decide),
    rfl, by decide,
    ((C12_padding_value_assert ⟨64, 32⟩ (some 8) (Extents.of_values [none] [5]) 4).2.2 4 rfl
      (by decide)).1⟩

/-- C12 as stated fails. On a 32-bit index type, with the configured padding stride
Static(8), the run-time padding value 4294967304 differs from 8 and passes the assertion: the
constructor compares the value as converted to the index type, which is 8. -/
theorem C12_counterexample :
    (4294967304 : Int) ≠ 8
    ∧ static_cast (Widths.mk 64 32).index_bits 4294967304 = 8
    ∧ (layout_left_padded.mapping.of_extents_padding ⟨64, 32⟩ (some 8)
        (Extents.of_values [none, none] [3, 4]) 4294967304).isSome = true
    ∧ ¬ ((some 8 : Option Nat) = none ∨ (some 8 : Option Nat) = some 4294967304)
    ∧ layout_left_padded.mapping.of_extents_padding ⟨64, 32⟩ (some 8)
        (Extents.of_values [none, none] [3, 4]) 4294967304 ≠ none := by
  refine ⟨by decide, by decide, by decide, by decide, ?_⟩
  intro h
  have h2 : (layout_left_padded.mapping.of_extents_padding ⟨64, 32⟩ (some 8)
      (Extents.of_values [none, none] [3, 4]) 4294967304).isSome = true := by decide
  rw [h] at h2
  exact absurd h2 (by decide)

/-- C13: in a configuration that has a dimension 0, a configured padding stride Static(0)
passes the static assertion exactly when dimension 0 is Static(0): a Dynamic dimension 0 and
a nonzero static dimension 0 are rejected; and every configuration whose configured padding
stride is nonzero or Dynamic passes the assertion. -/
theorem C13_zero_padding_static_assert (sx : List (Option Nat)) (ps : Option Nat) :
    (1 ≤ sx.length →
        (padding_stride_static_assert sx (some 0) = true ↔ static_extent sx 0 = some 0))
    ∧ (1 ≤ sx.length → static_extent sx 0 = none →
        padding_stride_static_assert sx (some 0) = false)
    ∧ (∀ e, static_extent sx 0 = some e → e ≠ 0 →
        padding_stride_static_assert sx (some 0) = false)
    ∧ (ps ≠ some 0 → padding_stride_static_assert sx ps = true) := by
  refine ⟨?_, ?_, ?_, ?_⟩
  · intro _
    simp [padding_stride_static_assert]
  · intro _ h
    simp [padding_stride_static_assert, h]
  · intro e h he
    simp [padding_stride_static_assert, h, he]
  · intro h
    simp [padding_stride_static_assert, h]

/-- C13 at the configuration of rank 2 with dimension 0 Static(0), under the padding strides
Static(0) and Static(4). -/
theorem C13_zero_padding_static_assert_witness :
    1 ≤ [some 0, (none : Option Nat)].length
    ∧ static_extent [some 0, none] 0 = some 0
    ∧ padding_stride_static_assert [some 0, none] (some 0) = true
    ∧ (some 4 : Option Nat) ≠ some 0
    ∧ padding_stride_static_assert [some 0, none] (some 4) = true :=
  ⟨by decide, by decide,
    ((C13_zero_padding_static_assert [some 0, none] (some 4)).1 (by decide)).2 (by decide),
    by decide,
    (C13_zero_padding_static_assert [some 0, none] (some 4)).2.2.2 (by decide)⟩

/-- C15 (amended): for rank at least 2 with the configured padding stride Dynamic, whether
dimension 0 is Dynamic or Static, constructing a mapping from a shape alone leaves dimension
0 of the inner shape at shape.extent(0), so stride(1) = shape.extent(0); with the configured
padding stride Static(P) and dimension 0 Dynamic, the resolved padding stride is Dynamic and
dimension 0 of the inner shape is the run-time value roundUp(P, shape.extent(0)), provided
shape.extent(0) + P - 1 is representable in the index type. -/
theorem C15_default_mode (w : Widths) {sx : List (Option Nat)} (E : Extents sx)
    (hrank : 2 ≤ sx.length) :
    ((layout_left_padded.mapping.of_extents w none E).inner_mapping.extents.extent 0
        = E.extent 0
      ∧ (layout_left_padded.mapping.of_extents w none E).stride 1 = E.extent 0)
    ∧ (∀ P, static_extent sx 0 = none → E.extent 0 + P - 1 < 2 ^ w.index_bits →
        get_actual_padding_stride w.size_bits sx (some P) = none
        ∧ (layout_left_padded.mapping.of_extents w (some P) E).inner_mapping.extents.extent 0
            = roundUp P (E.extent 0)
        ∧ (layout_left_padded.mapping.of_extents w (some P) E).stride 1
            = roundUp P (E.extent 0)) := by
  refine ⟨⟨construct_extent_zero_dynamic E hrank, ?_⟩, ?_⟩
  · rw [layout_left_padded.mapping.stride, layout_left_stride_one]
    exact construct_extent_zero_dynamic E hrank
  · intro P hx hfit
    have h0 := construct_extent_zero_static w P E hrank
    rw [rounding_bits_dynamic_extent w (some P) sx hx,
      find_aligned_offset_eq_roundUp _ P _ (Or.inr hfit)] at h0
    refine ⟨?_, h0, ?_⟩
    · unfold get_actual_padding_stride
      rw [if_neg (by omega), hx]
    · rw [layout_left_padded.mapping.stride, layout_left_stride_one]
      exact h0

/-- C15 (amended) at the shape (3, 4) with both dimensions dynamic, on 64-bit integer
types. -/
theorem C15_default_mode_witness :
    2 ≤ [(none : Option Nat), none].length
    ∧ static_extent [(none : Option Nat), none] 0 = none
    ∧ (Extents.of_values [none, none] [3, 4]).extent 0 + 8 - 1
        < 2 ^ (Widths.mk 64 64).index_bits
    ∧ (layout_left_padded.mapping.of_extents ⟨64, 64⟩ none
        (Extents.of_values [none, none] [3, 4])).stride 1
        = (Extents.of_values [none, none] [3, 4]).extent 0
    ∧ (layout_left_padded.mapping.of_extents ⟨64, 64⟩ (some 8)
        (Extents.of_values [none, none] [3, 4])).stride 1
        = roundUp 8 ((Extents.of_values [none, none] [3, 4]).extent 0) :=
  ⟨by decide, by decide, by decide,
    (C15_default_mode ⟨64, 64⟩ (Extents.of_values [none, none] [3, 4]) (by decide)).1.2,
    ((C15_default_mode ⟨64, 64⟩ (Extents.of_values [none, none] [3, 4]) (by decide)).2 8
      (by decide) (by decide)).2.2⟩

/-- C15 as stated fails: with the configured padding stride and both dimensions Dynamic, the
mapping constructed from the shape (3, 4) alone has inner dimension-0 size 3 and stride(1) =
3, the true size; 3 is roundUp(p, 3) for no padding p other than 1 and 3, so for no value
above 3 that a Dynamic padding stride could stand for. The rounding the code applies under a
Static padding stride is not always roundUp either: on 64-bit integer types, with the
configured padding stride Static(10) and the shape (18446744073709551610, 1), the inner
dimension-0 size is 0 where roundUp(10, 18446744073709551610) is 18446744073709551610. -/
theorem C15_counterexample :
    2 ≤ [(none : Option Nat), none].length
    ∧ (layout_left_padded.mapping.of_extents ⟨64, 64⟩ none
        (Extents.of_values [none, none] [3, 4])).inner_mapping.extents.extent 0 = 3
    ∧ (layout_left_padded.mapping.of_extents ⟨64, 64⟩ none
        (Extents.of_values [none, none] [3, 4])).stride 1 = 3
    ∧ (∀ p, roundUp p ((Extents.of_values [none, none] [3, 4]).extent 0)
          = (layout_left_padded.mapping.of_extents ⟨64, 64⟩ none
              (Extents.of_values [none, none] [3, 4])).inner_mapping.extents.extent 0 →
        p = 1 ∨ p = 3)
    ∧ (∀ p, 3 < p →
        (layout_left_padded.mapping.of_extents ⟨64, 64⟩ none
            (Extents.of_values [none, none] [3, 4])).inner_mapping.extents.extent 0
          ≠ roundUp p ((Extents.of_values [none, none] [3, 4]).extent 0))
    ∧ (layout_left_padded.mapping.of_extents ⟨64, 64⟩ (some 10)
        (Extents.of_values [none, none]
          [18446744073709551610, 1])).inner_mapping.extents.extent 0 = 0
    ∧ roundUp 10 ((Extents.of_values [none, none] [18446744073709551610, 1]).extent 0)
        = 18446744073709551610 := by
  have key : ∀ p, roundUp p ((Extents.of_values [none, none] [3, 4]).extent 0)
          = (layout_left_padded.mapping.of_extents ⟨64, 64⟩ none
              (Extents.of_values [none, none] [3, 4])).inner_mapping.extents.extent 0 →
        p = 1 ∨ p = 3 := ?_
  · refine ⟨by decide, by decide, by decide, key, ?_, by decide, ?_⟩
    · intro p hp heq
      rcases key p heq.symm with h | h <;> omega
    · rw [roundUp_eq]
      decide
  intro p hp
  have h3 : (layout_left_padded.mapping.of_extents ⟨64, 64⟩ none
      (Extents.of_values [none, none] [3, 4])).inner_mapping.extents.extent 0 = 3 := by
    decide
  rw [h3] at hp
  have hd := roundUp_dvd p ((Extents.of_values [none, none] [3, 4]).extent 0)
  rw [hp] at hd
  exact (Nat.dvd_prime Nat.prime_three).1 hd

/-- C17: for every mapping, whenever isExhaustive() returns true, every offset k with
0 <= k < requiredSpanSize() is the offset of some index tuple lying within the true
extents. -/
theorem C17_exhaustive_covers_span {w : Widths} {ps : Option Nat} {sx : List (Option Nat)}
    (m : layout_left_padded.mapping w ps sx) (hex : m.is_exhaustive = true) (k : Nat)
    (hk : k < m.required_span_size) :
    ∃ idxs, m.extents.contains idxs ∧ m.offset idxs = k := by
  rw [mapping_span_eq_stride, layout_left_stride_eq_prod] at hk
  obtain ⟨idxs, hlen, hb, hoff⟩ :=
    layout_left_compute_offset_surjective m.inner_mapping sx.length 0 k (by simpa using hk)
  refine ⟨idxs, ⟨hlen, ?_⟩, hoff⟩
  intro r hr
  have hbr := hb r hr
  rw [Nat.zero_add] at hbr
  by_cases h0 : r = 0
  · subst h0
    have hne : ¬ sx.length = 0 := by omega
    have hz : m.inner_mapping.extents.extent 0 = m.unpadded_extent.extent 0 := by
      simpa [layout_left_padded.mapping.is_exhaustive, hne] using hex
    rw [mapping_extents_zero m (by omega), ← hz]
    exact hbr
  · rw [mapping_extents_succ m r (by omega) hr]
    exact hbr

/-- C17 at the shape (4, 3) under the configured padding stride Static(4): offset 7. -/
theorem C17_exhaustive_covers_span_witness :
    (layout_left_padded.mapping.of_extents ⟨64, 64⟩ (some 4)
        (Extents.of_values [none, none] [4, 3])).is_exhaustive = true
    ∧ 7 < (layout_left_padded.mapping.of_extents ⟨64, 64⟩ (some 4)
        (Extents.of_values [none, none] [4, 3])).required_span_size
    ∧ ∃ idxs, (layout_left_padded.mapping.of_extents ⟨64, 64⟩ (some 4)
          (Extents.of_values [none, none] [4, 3])).extents.contains idxs
        ∧ (layout_left_padded.mapping.of_extents ⟨64, 64⟩ (some 4)
          (Extents.of_values [none, none] [4, 3])).offset idxs = 7 :=
  ⟨by decide, by decide,
    C17_exhaustive_covers_span
      (layout_left_padded.mapping.of_extents ⟨64, 64⟩ (some 4)
        (Extents.of_values [none, none] [4, 3]))
      (by decide) 7 (by decide)⟩

/-- C19: in a configuration for which isAlwaysExhaustive() is true, the mapping built from a
shape alone, and the mapping built from a shape with a padding value that matches the
configuration (as the constructor compares it, converted to the index type), have
isExhaustive() true. -/
theorem C19_always_exhaustive_sound (w : Widths) {sx : List (Option Nat)} (ps : Option Nat)
    (E : Extents sx) (v : Int)
    (hae : layout_left_padded.mapping.is_always_exhaustive w ps sx = true) :
    (layout_left_padded.mapping.of_extents w ps E).is_exhaustive = true
    ∧ ((ps = none ∨ ps = some (static_cast w.index_bits v)) →
        ∃ m, layout_left_padded.mapping.of_extents_padding w ps E v = some m
          ∧ m.is_exhaustive = true) := by
  by_cases h1 : sx.length ≤ 1
  · refine ⟨is_exhaustive_of_inner_eq _ E (fun _ => construct_small _ ps E 0 h1), ?_⟩
    intro hps
    exact ⟨_, of_extents_padding_some w ps E v hps,
      is_exhaustive_of_inner_eq _ E (fun _ => construct_padding_small _ E _ 0 h1)⟩
  · obtain ⟨P2, E0, hP2, hE0, hr⟩ := is_always_exhaustive_padded w ps (by omega) hae
    subst hP2
    have hE : E.extent 0 = E0 := extent_of_static E 0 E0 hE0
    refine ⟨is_exhaustive_of_inner_eq _ E (fun _ => ?_), ?_⟩
    · rw [construct_extent_zero_static w P2 E (by omega), rounding_bits_static w P2 E0 sx hE0,
        hE, hr]
    · intro hps
      refine ⟨_, of_extents_padding_some w (some P2) E v hps,
        is_exhaustive_of_inner_eq _ E (fun _ => ?_)⟩
      have hPP : P2 = static_cast w.index_bits v := by
        rcases hps with h | h
        · cases h
        · exact Option.some.inj h
      rw [← hPP, construct_padding_extent_zero w (some P2) E P2 (by omega) (Or.inr rfl),
        rounding_bits_static w P2 E0 sx hE0, hE, hr]

/-- C19 at the static shape (8, 4) under the configured padding stride Static(4), on 64-bit
integer types. -/
theorem C19_always_exhaustive_sound_witness :
    layout_left_padded.mapping.is_always_exhaustive ⟨64, 64⟩ (some 4) [some 8, none] = true
    ∧ ((some 4 : Option Nat) = none
        ∨ (some 4 : Option Nat) = some (static_cast (Widths.mk 64 64).index_bits 4))
    ∧ (layout_left_padded.mapping.of_extents ⟨64, 64⟩ (some 4)
        (Extents.of_values [some 8, none] [8, 4])).is_exhaustive = true
    ∧ ∃ m, layout_left_padded.mapping.of_extents_padding ⟨64, 64⟩ (some 4)
          (Extents.of_values [some 8, none] [8, 4]) 4 = some m
        ∧ m.is_exhaustive = true :=
  ⟨by decide, by decide,
    (C19_always_exhaustive_sound ⟨64, 64⟩ (some 4) (Extents.of_values [some 8, none] [8, 4])
      4 (by decide)).1,
    (C19_always_exhaustive_sound ⟨64, 64⟩ (some 4) (Extents.of_values [some 8, none] [8, 4])
      4 (by decide)).2 (by decide)⟩

end Mdspan
